import Mathlib

/-
Verification of the Harmonify runtime patching library.

The development shallowly embeds the two engines of the repository:

* the Wrap Engine of `core.py` (`patch_method`, `patch_function`,
  `unpatch_method`, `unpatch_function` and the generated dispatchers), and
* the AST Injection Engine of `src/harmonify/injector/method_inject.py`
  and `function_patch.py` (`inject_method`, `undo_method_inject`, and the
  `CodeInjector.visit_FunctionDef` insertion-index computation).

Call-level behaviour of the generated dispatchers is embedded as pure
functions that, besides the returned value, record which hooks actually
executed and with which arguments (the instrumentation fields of
`DispatchOutcome`).  Registry-level behaviour (the module-wide `_patches`
and `_method_injections` dicts together with the class/module attribute
slots mutated by `setattr`) is embedded as explicit state passing over
association lists.
-/

/-- Modelled from the spec: the module `flow_control.py` imported by
`core.py` (`from .flow_control import CONTINUE_EXEC, CONTINUE_WITHOUT_POSTFIX,
STOP_EXEC`) is not under `src/`; the spec describes FlowState as a closed
three-value enumeration {CONTINUE, CONTINUE_WITHOUT_POSTFIX, STOP}.  The
constructor `CONTINUE_NPF` stands for the source name CONTINUE_WITHOUT_POSTFIX
(the in-repo `Harmonify.FlowControl` class corroborates three distinct
values: "continue", "continue_npf", "stop"). -/
inductive FlowState where
  | CONTINUE_EXEC
  | CONTINUE_NPF
  | STOP_EXEC
  deriving DecidableEq, Repr

/-- The 4-tuple `(result, new_args, new_kwds, flow_state)` that a prefix hook
returns in `core.py` (line 59: `result, new_args, new_kwds, flow_state =
bound_prefix(*args, **kwds)`; line 115 analogously for `patch_function`).
`result : Option V` models a Python value where `none` is Python `None`. -/
structure PrefRet (A K V : Type) where
  result : Option V
  new_args : A
  new_kwds : K
  flow_state : FlowState
  deriving DecidableEq, Repr

/-- Outcome of one call to a generated dispatcher.  `result` is the Python
return value (`none` = Python `None`).  The remaining fields instrument the
dynamic behaviour of the dispatcher body: `orig_args` is `some (a, k)` iff
the original callable was invoked, and then with positional/keyword
arguments `(a, k)`; `post_in` is `some w` iff the postfix hook was invoked,
and then with working result `w`; `ran_replace` / `ran_pre` record whether
the replace / prefix hook was invoked. -/
structure DispatchOutcome (A K V : Type) where
  result : Option V
  ran_replace : Bool
  ran_pre : Bool
  orig_args : Option (A × K)
  post_in : Option (Option V)
  deriving DecidableEq, Repr

/-- The working result a call ended with before returning: the value handed
to the postfix hook when one ran, otherwise the returned value itself. -/
def DispatchOutcome.working {A K V : Type} (o : DispatchOutcome A K V) : Option V :=
  match o.post_in with
  | some w => w
  | none => o.result

/-- Embedding of the dispatcher `patched_method` generated by
`core.py::patch_method` (lines 38-74).  `I` is the type of instances, `A`
of positional-argument tuples, `K` of keyword-argument dicts, `V` of
values.  A hook bound via `types.MethodType(h, instance)` is modelled by
passing `inst` as first argument.  Control flow follows the source:
a supplied `replace` returns immediately; otherwise `flow_state` starts at
`CONTINUE_EXEC` and `new_args, new_kwds` start at `args, kwds` (line 42),
a supplied prefix hook overrides all four via its returned 4-tuple; the
original runs iff `flow_state != STOP_EXEC`, on `new_args, new_kwds`
(line 64); the postfix runs iff supplied and `flow_state == CONTINUE_EXEC`,
receiving the working result and the ORIGINAL `args, kwds` (line 71). -/
def patched_method {I A K V : Type}
    (original_method : I → A → K → Option V)
    (preHook : Option (I → A → K → PrefRet A K V))
    (postHook : Option (I → Option V → A → K → Option V))
    (replace : Option (I → A → K → Option V))
    (inst : I) (args : A) (kwds : K) : DispatchOutcome A K V :=
  match replace with
  | some r =>
      { result := r inst args kwds, ran_replace := true,
        ran_pre := false, orig_args := none, post_in := none }
  | none =>
    let pr : PrefRet A K V :=
      match preHook with
      | some p => p inst args kwds
      | none =>
          { result := none, new_args := args, new_kwds := kwds,
            flow_state := FlowState.CONTINUE_EXEC }
    let step : Option V × Option (A × K) :=
      if pr.flow_state ≠ FlowState.STOP_EXEC then
        (original_method inst pr.new_args pr.new_kwds, some (pr.new_args, pr.new_kwds))
      else (pr.result, none)
    match postHook with
    | some q =>
        if pr.flow_state = FlowState.CONTINUE_EXEC then
          { result := q inst step.1 args kwds, ran_replace := false,
            ran_pre := preHook.isSome, orig_args := step.2, post_in := some step.1 }
        else
          { result := step.1, ran_replace := false, ran_pre := preHook.isSome,
            orig_args := step.2, post_in := none }
    | none =>
        { result := step.1, ran_replace := false, ran_pre := preHook.isSome,
          orig_args := step.2, post_in := none }

/-- Embedding of the dispatcher `patched_function` generated by
`core.py::patch_function` (lines 107-124).  Unlike the method form, this
body has NO initialisation `new_args, new_kwds = args, kwds`: the two
names are assigned only inside the `if prefix:` branch (line 115), so when
no prefix hook was supplied and `flow_state != STOP_EXEC` holds, the call
`original_function(*new_args, **new_kwds)` (line 118) raises a NameError,
modelled as `Except.error "NameError"`. -/
def patched_function {A K V : Type}
    (original_function : A → K → Option V)
    (preHook : Option (A → K → PrefRet A K V))
    (postHook : Option (Option V → A → K → Option V))
    (replace : Option (A → K → Option V))
    (args : A) (kwds : K) : Except String (DispatchOutcome A K V) :=
  match replace with
  | some r =>
      Except.ok { result := r args kwds, ran_replace := true,
                  ran_pre := false, orig_args := none, post_in := none }
  | none =>
    match preHook with
    | some p =>
      let pr := p args kwds
      if pr.flow_state ≠ FlowState.STOP_EXEC then
        let res := original_function pr.new_args pr.new_kwds
        match postHook with
        | some q =>
            if pr.flow_state = FlowState.CONTINUE_EXEC then
              Except.ok { result := q res args kwds, ran_replace := false,
                          ran_pre := true,
                          orig_args := some (pr.new_args, pr.new_kwds),
                          post_in := some res }
            else
              Except.ok { result := res, ran_replace := false, ran_pre := true,
                          orig_args := some (pr.new_args, pr.new_kwds),
                          post_in := none }
        | none =>
            Except.ok { result := res, ran_replace := false, ran_pre := true,
                        orig_args := some (pr.new_args, pr.new_kwds),
                        post_in := none }
      else
        Except.ok { result := pr.result, ran_replace := false, ran_pre := true,
                    orig_args := none, post_in := none }
    | none =>
      Except.error "NameError"

/-- Lookup in an association list; models Python dict lookup (`d.get(k)`,
`k in d`).  Keys are compared with decidable equality, matching dict key
identity for the `(container, name)` tuples used by the repository. -/
def lookupA {K V : Type} [DecidableEq K] (k : K) : List (K × V) → Option V
  | [] => none
  | (k1, v) :: rest => if k1 = k then some v else lookupA k rest

/-- Removal of a key; models Python `d.pop(k)` discarding the binding. -/
def eraseA {K V : Type} [DecidableEq K] (k : K) (l : List (K × V)) : List (K × V) :=
  l.filter (fun p => decide (p.1 ≠ k))

/-- Assignment `d[k] = v` (also `setattr(container, name, v)`): the binding
for `k` becomes `v`; other bindings are untouched. -/
def setA {K V : Type} [DecidableEq K] (k : K) (v : V) (l : List (K × V)) : List (K × V) :=
  (k, v) :: eraseA k l

/-- A Python object that can occupy a callable attribute slot.  `base n c`
is a pre-existing object with identity `n` and truth value `c` of
`callable(·)`; `dispatcher o h` is the closure `patched_method` /
`patched_function` built by the Wrap Engine over captured original `o` and
hook bundle `h`; `injected o c` is the recompiled callable (including its
classmethod/staticmethod re-wrap) that `inject_method` builds from source
object `o` and injection parameters identified by `c`.  Closures and
recompiled functions are callable, hence `callable` is `true` on both. -/
inductive Obj (H : Type) where
  | base (n : Nat) (is_callable : Bool)
  | dispatcher (original : Obj H) (hooks : H)
  | injected (original : Obj H) (code : Nat)
  deriving DecidableEq, Repr

/-- The Python `callable(x)` test on an attribute slot value. -/
def Obj.callable {H : Type} : Obj H → Bool
  | Obj.base _ c => c
  | Obj.dispatcher _ _ => true
  | Obj.injected _ _ => true

/-- The process state the two engines mutate: `attrs` holds the attribute
slots addressed by `(container, name)` identities (read by `getattr`,
written by `setattr`), `patches` is the module-level `_patches` dict of
`core.py`, and `method_injections` is the module-level `_method_injections`
dict of `method_inject.py`.  `K` is the type of identities, `H` of hook
bundles. -/
structure PyState (K H : Type) where
  attrs : List (K × Obj H)
  patches : List (K × Obj H)
  method_injections : List (K × (Obj H × Obj H))
  deriving DecidableEq, Repr

/-- Registry-level embedding of `core.py::patch_method` (lines 28-78):
`getattr(target_class, method_name, None)` with the `callable` guard
returning `False` on failure; first-capture-only insertion into `_patches`
(lines 34-36: `if patch_key not in _patches: _patches[patch_key] =
original_method`); installation of the generated dispatcher via `setattr`
(line 77); returns `True`. -/
def patch_method_st {K H : Type} [DecidableEq K]
    (st : PyState K H) (patch_key : K) (hooks : H) : Bool × PyState K H :=
  match lookupA patch_key st.attrs with
  | none => (false, st)
  | some original_method =>
    if original_method.callable then
      let patches :=
        match lookupA patch_key st.patches with
        | some _ => st.patches
        | none => setA patch_key original_method st.patches
      (true, { st with
                attrs := setA patch_key (Obj.dispatcher original_method hooks) st.attrs,
                patches := patches })
    else (false, st)

/-- Registry-level embedding of `core.py::patch_function` (lines 99-127),
identical to the method form at this level: callable guard, first-capture
into the same `_patches` dict, `setattr` install, `True` on success. -/
def patch_function_st {K H : Type} [DecidableEq K]
    (st : PyState K H) (patch_key : K) (hooks : H) : Bool × PyState K H :=
  match lookupA patch_key st.attrs with
  | none => (false, st)
  | some original_function =>
    if original_function.callable then
      let patches :=
        match lookupA patch_key st.patches with
        | some _ => st.patches
        | none => setA patch_key original_function st.patches
      (true, { st with
                attrs := setA patch_key (Obj.dispatcher original_function hooks) st.attrs,
                patches := patches })
    else (false, st)

/-- Embedding of `core.py::unpatch_method` (lines 161-170): if the identity
is in `_patches`, pop the stored original, `setattr` it back and return
`True`; otherwise return `False` leaving everything unchanged. -/
def unpatch_method_st {K H : Type} [DecidableEq K]
    (st : PyState K H) (patch_key : K) : Bool × PyState K H :=
  match lookupA patch_key st.patches with
  | some original_method =>
      (true, { st with
                attrs := setA patch_key original_method st.attrs,
                patches := eraseA patch_key st.patches })
  | none => (false, st)

/-- Embedding of `core.py::unpatch_function` (lines 174-183), identical to
`unpatch_method` at this level. -/
def unpatch_function_st {K H : Type} [DecidableEq K]
    (st : PyState K H) (patch_key : K) : Bool × PyState K H :=
  match lookupA patch_key st.patches with
  | some original_method =>
      (true, { st with
                attrs := setA patch_key original_method st.attrs,
                patches := eraseA patch_key st.patches })
  | none => (false, st)

/-- Embedding of `harmonify.py::Harmonify.unpatch` (lines 193-202): like
`unpatch_method` but the `return True` sits OUTSIDE the `if`, so the
missing-record case also returns `True`. -/
def Harmonify_unpatch_st {K H : Type} [DecidableEq K]
    (st : PyState K H) (patch_key : K) : Bool × PyState K H :=
  match lookupA patch_key st.patches with
  | some original_method =>
      (true, { st with
                attrs := setA patch_key original_method st.attrs,
                patches := eraseA patch_key st.patches })
  | none => (true, st)

/-- Registry-level embedding of `method_inject.py::inject_method`
(lines 9-77).  `getattr(target_class, method_name)` has no default, so a
missing attribute raises (modelled as `Except.error`).  The
source-retrieval / AST-rewrite / recompile / re-wrap pipeline
(lines 27-67) is abstracted into the fresh object `Obj.injected
target_method code`; its per-call semantics is treated separately by
`visit_FunctionDef_body` below.  First-capture-only insertion of the pair
`(target_method, new_method)` into `_method_injections` (lines 70-73),
`setattr` install (line 76), `return True`. -/
def inject_method_st {K H : Type} [DecidableEq K]
    (st : PyState K H) (inject_key : K) (code : Nat) :
    Except String (Bool × PyState K H) :=
  match lookupA inject_key st.attrs with
  | none => Except.error "AttributeError"
  | some target_method =>
    let new_method := Obj.injected target_method code
    let injections :=
      match lookupA inject_key st.method_injections with
      | some _ => st.method_injections
      | none => setA inject_key (target_method, new_method) st.method_injections
    Except.ok (true, { st with
                        attrs := setA inject_key new_method st.attrs,
                        method_injections := injections })

/-- Embedding of `method_inject.py::undo_method_inject` (lines 81-95):
`original_method = _method_injections[inject_key][0]` subscripts the dict
directly, so a missing record raises a KeyError (modelled as
`Except.error "KeyError"`); on success the pre-injection callable is
rebound via `setattr` and `True` is returned.  Note the record is NOT
removed from `_method_injections`. -/
def undo_method_inject_st {K H : Type} [DecidableEq K]
    (st : PyState K H) (inject_key : K) :
    Except String (Bool × PyState K H) :=
  match lookupA inject_key st.method_injections with
  | none => Except.error "KeyError"
  | some pr =>
      Except.ok (true, { st with attrs := setA inject_key pr.1 st.attrs })

/-- A top-level statement of a parsed callable body, as seen by the
`CodeInjector` loop: `has_lineno` models `hasattr(statement, "lineno")`,
`lineno` its line number relative to the callable source (int), and `tag`
an identity distinguishing statements. -/
structure Stmt where
  tag : Nat
  has_lineno : Bool
  lineno : Int
  deriving DecidableEq, Repr

/-- The loop of `CodeInjector.visit_FunctionDef`
(`function_patch.py` lines 37-39, `method_inject.py` lines 43-45):
`for index, statement in enumerate(node.body): if hasattr(statement,
"lineno") and statement.lineno <= target_line: insert_index = index + 1`.
`i` is the value of `index` for the head of the remaining list and `acc`
the current value of the `insert_index` variable. -/
def insert_loop (target_line : Int) : List Stmt → Nat → Nat → Nat
  | [], _, acc => acc
  | s :: rest, i, acc =>
      insert_loop target_line rest (i + 1)
        (if s.has_lineno ∧ s.lineno ≤ target_line then i + 1 else acc)

/-- The resulting `insert_index` for a body and `insert_after_line` value:
the loop starting from `index = 0` and `insert_index = 0`. -/
def insert_index (body : List Stmt) (target_line : Int) : Nat :=
  insert_loop target_line body 0 0

/-- Body transformation of `CodeInjector.visit_FunctionDef`: when
`code_to_inject` is truthy, its parsed statements are spliced at
`insert_index` via `new_node.body[insert_index:insert_index] =
injected_code`; otherwise the body is unchanged.  (`generic_visit` recurses
into nested nodes; top-level body statements themselves are preserved.) -/
def visit_FunctionDef_body (body : List Stmt) (insert_after_line : Int)
    (code_to_inject : Option (List Stmt)) : List Stmt :=
  match code_to_inject with
  | none => body
  | some injected_code =>
      let k := insert_index body insert_after_line
      body.take k ++ injected_code ++ body.drop k

/-- Length of the qualifying prefix: the number of leading body statements
whose line number is present and at most `target_line`.  Specification-side
helper used to characterise `insert_index`. -/
def qlen (target_line : Int) : List Stmt → Nat
  | [] => 0
  | s :: rest =>
      if s.has_lineno ∧ s.lineno ≤ target_line then qlen target_line rest + 1 else 0


/-- A concrete original method used by closed witness theorems: adds one to
its positional argument. -/
def om0 : Unit → Nat → Unit → Option Nat := fun _ a _ => some (a + 1)

/-- A concrete original module-level function for the function form. -/
def of0 : Nat → Unit → Option Nat := fun a _ => some (a + 1)

/-- A concrete prefix hook for methods that stops execution. -/
def preStop : Unit → Nat → Unit → PrefRet Nat Unit Nat :=
  fun _ _ _ => ⟨some 9, 7, (), FlowState.STOP_EXEC⟩

/-- A concrete prefix hook for methods that continues without postfix. -/
def preNpf : Unit → Nat → Unit → PrefRet Nat Unit Nat :=
  fun _ _ _ => ⟨some 9, 7, (), FlowState.CONTINUE_NPF⟩

/-- A concrete prefix hook for methods that continues normally but rewrites
the positional arguments from the call to the constant 2. -/
def preCont : Unit → Nat → Unit → PrefRet Nat Unit Nat :=
  fun _ _ _ => ⟨none, 2, (), FlowState.CONTINUE_EXEC⟩

/-- Function-form counterparts of the three concrete prefix hooks. -/
def fpreStop : Nat → Unit → PrefRet Nat Unit Nat :=
  fun _ _ => ⟨some 9, 7, (), FlowState.STOP_EXEC⟩

def fpreNpf : Nat → Unit → PrefRet Nat Unit Nat :=
  fun _ _ => ⟨some 9, 7, (), FlowState.CONTINUE_NPF⟩

def fpreCont : Nat → Unit → PrefRet Nat Unit Nat :=
  fun _ _ => ⟨none, 2, (), FlowState.CONTINUE_EXEC⟩

/-- A concrete postfix hook (method form): passes the working result on. -/
def post0 : Unit → Option Nat → Nat → Unit → Option Nat := fun _ r _ _ => r

/-- A concrete postfix hook (function form). -/
def fpost0 : Option Nat → Nat → Unit → Option Nat := fun r _ _ => r

/-- A concrete replace hook (method form): doubles the argument. -/
def repl0 : Unit → Nat → Unit → Option Nat := fun _ a _ => some (a * 2)

/-- A concrete replace hook (function form). -/
def frepl0 : Nat → Unit → Option Nat := fun a _ => some (a * 2)

/-- A concrete process state with one callable attribute at identity 0 and
empty registries. -/
def stOneCallable : PyState Nat Nat :=
  ⟨[(0, Obj.base 1 true)], [], []⟩

/-- A concrete process state whose only attribute at identity 0 is NOT
callable. -/
def stOneNotCallable : PyState Nat Nat :=
  ⟨[(0, Obj.base 1 false)], [], []⟩

/-- The empty process state: no attributes, no records. -/
def stEmpty : PyState Nat Nat := ⟨[], [], []⟩

/-- The 2-tuple `(result, flow_state)` that a prefix hook returns in the
`harmonify.py` revision of the dispatcher (line 58: `result, flow_state =
bound_prefix(*args, **kwds)`). -/
structure HPrefRet (V : Type) where
  result : Option V
  flow_state : FlowState
  deriving DecidableEq, Repr

/-- Embedding of the dispatcher `patched_method` generated by
`harmonify.py::Harmonify.patch_method` (lines 39-73).  This historical
revision of the engine differs from `core.py`: the prefix hook returns
only `(result, flow_state)` and the original method is invoked with the
ORIGINAL `args, kwds` of the call (line 63). -/
def Harmonify_patched_method {I A K V : Type}
    (original_method : I → A → K → Option V)
    (preHook : Option (I → A → K → HPrefRet V))
    (postHook : Option (I → Option V → A → K → Option V))
    (replace : Option (I → A → K → Option V))
    (inst : I) (args : A) (kwds : K) : DispatchOutcome A K V :=
  match replace with
  | some r =>
      { result := r inst args kwds, ran_replace := true,
        ran_pre := false, orig_args := none, post_in := none }
  | none =>
    let pr : HPrefRet V :=
      match preHook with
      | some p => p inst args kwds
      | none => { result := none, flow_state := FlowState.CONTINUE_EXEC }
    let step : Option V × Option (A × K) :=
      if pr.flow_state ≠ FlowState.STOP_EXEC then
        (original_method inst args kwds, some (args, kwds))
      else (pr.result, none)
    match postHook with
    | some q =>
        if pr.flow_state = FlowState.CONTINUE_EXEC then
          { result := q inst step.1 args kwds, ran_replace := false,
            ran_pre := preHook.isSome, orig_args := step.2, post_in := some step.1 }
        else
          { result := step.1, ran_replace := false, ran_pre := preHook.isSome,
            orig_args := step.2, post_in := none }
    | none =>
        { result := step.1, ran_replace := false, ran_pre := preHook.isSome,
          orig_args := step.2, post_in := none }

/-- A concrete prefix hook in the `harmonify.py` convention that continues
normally. -/
def hpreCont : Unit → Nat → Unit → HPrefRet Nat := fun _ _ _ => ⟨none, FlowState.CONTINUE_EXEC⟩

/-- A concrete callable body with top-level statements at relative lines
1, 3 and 7, as in the spec scenario for anchor resolution. -/
def body137 : List Stmt := [⟨0, true, 1⟩, ⟨1, true, 3⟩, ⟨2, true, 7⟩]

/-- A concrete injected block of one statement. -/
def inj0 : List Stmt := [⟨100, true, 1⟩]

theorem insert_loop_all_gt (target_line : Int) (l : List Stmt)
    (h : ∀ s ∈ l, ¬(s.has_lineno ∧ s.lineno ≤ target_line)) :
    ∀ i acc, insert_loop target_line l i acc = acc := by
  induction l with
  | nil => intro i acc; rfl
  | cons s rest ih =>
      intro i acc
      have hs : ¬(s.has_lineno ∧ s.lineno ≤ target_line) := h s (List.mem_cons_self s rest)
      have hrest : ∀ x ∈ rest, ¬(x.has_lineno ∧ x.lineno ≤ target_line) :=
        fun x hx => h x (List.mem_cons_of_mem s hx)
      simp only [insert_loop, if_neg hs]
      exact ih hrest (i + 1) acc

theorem insert_loop_eq_qlen (target_line : Int) (body : List Stmt)
    (hinc : body.Pairwise (fun a b => a.lineno < b.lineno))
    (hln : ∀ s ∈ body, s.has_lineno = true) :
    ∀ i acc, insert_loop target_line body i acc =
      if qlen target_line body = 0 then acc else i + qlen target_line body := by
  induction body with
  | nil => intro i acc; simp [insert_loop, qlen]
  | cons s rest ih =>
      intro i acc
      have hsln : s.has_lineno = true := hln s (List.mem_cons_self s rest)
      have hrestln : ∀ x ∈ rest, x.has_lineno = true :=
        fun x hx => hln x (List.mem_cons_of_mem s hx)
      have hrestinc : rest.Pairwise (fun a b => a.lineno < b.lineno) :=
        (List.pairwise_cons.mp hinc).2
      by_cases hq : s.has_lineno ∧ s.lineno ≤ target_line
      · simp only [insert_loop, if_pos hq, qlen]
        rw [ih hrestinc hrestln (i + 1) (i + 1)]
        by_cases h0 : qlen target_line rest = 0
        · simp [h0]
        · simp only [if_neg h0]
          have : qlen target_line rest + 1 ≠ 0 := Nat.succ_ne_zero _
          simp only [if_neg this]
          omega
      · have hgt : target_line < s.lineno := by
          rcases not_and_or.mp hq with h1 | h2
          · exact absurd hsln h1
          · exact lt_of_not_le h2
        have hrest_gt : ∀ x ∈ rest, ¬(x.has_lineno ∧ x.lineno ≤ target_line) := by
          intro x hx hcon
          have hlt : s.lineno < x.lineno := (List.pairwise_cons.mp hinc).1 x hx
          have : x.lineno ≤ target_line := hcon.2
          omega
        simp only [insert_loop, if_neg hq, qlen]
        rw [insert_loop_all_gt target_line rest hrest_gt (i + 1) acc]
        simp [if_pos, hq]

theorem insert_index_eq_qlen (body : List Stmt) (target_line : Int)
    (hinc : body.Pairwise (fun a b => a.lineno < b.lineno))
    (hln : ∀ s ∈ body, s.has_lineno = true) :
    insert_index body target_line = qlen target_line body := by
  unfold insert_index
  rw [insert_loop_eq_qlen target_line body hinc hln 0 0]
  by_cases h0 : qlen target_line body = 0 <;> simp [h0]

theorem qlen_le_length (target_line : Int) (body : List Stmt) :
    qlen target_line body ≤ body.length := by
  induction body with
  | nil => simp [qlen]
  | cons s rest ih =>
      by_cases hq : s.has_lineno ∧ s.lineno ≤ target_line
      · simp only [qlen, if_pos hq, List.length_cons]
        omega
      · simp [qlen, if_neg hq]

theorem qlen_get_iff (target_line : Int) (body : List Stmt)
    (hinc : body.Pairwise (fun a b => a.lineno < b.lineno))
    (hln : ∀ s ∈ body, s.has_lineno = true) :
    ∀ (i : Nat) (h : i < body.length),
      (body.get ⟨i, h⟩).lineno ≤ target_line ↔ i < qlen target_line body := by
  induction body with
  | nil => intro i h; simp at h
  | cons s rest ih =>
      intro i h
      have hsln : s.has_lineno = true := hln s (List.mem_cons_self s rest)
      have hrestln : ∀ x ∈ rest, x.has_lineno = true :=
        fun x hx => hln x (List.mem_cons_of_mem s hx)
      have hrestinc : rest.Pairwise (fun a b => a.lineno < b.lineno) :=
        (List.pairwise_cons.mp hinc).2
      cases i with
      | zero =>
          simp only [List.get]
          by_cases hq : s.lineno ≤ target_line
          · have : qlen target_line (s :: rest) = qlen target_line rest + 1 := by
              simp [qlen, hsln, hq]
            simp [hq, this]
          · have : qlen target_line (s :: rest) = 0 := by
              simp [qlen, hsln, hq]
            simp [hq, this]
      | succ j =>
          have hj : j < rest.length := by
            simpa [List.length_cons, Nat.succ_lt_succ_iff] using h
          have := ih hrestinc hrestln j hj
          by_cases hq : s.lineno ≤ target_line
          · have hqq : qlen target_line (s :: rest) = qlen target_line rest + 1 := by
              simp [qlen, hsln, hq]
            simpa [hqq, List.get, Nat.succ_lt_succ_iff] using this
          · have hgt : target_line < s.lineno := lt_of_not_le hq
            have hqq : qlen target_line (s :: rest) = 0 := by
              simp [qlen, hsln, hq]
            have hjgt : target_line < (rest.get ⟨j, hj⟩).lineno := by
              have hmem : rest.get ⟨j, hj⟩ ∈ rest := rest.get_mem j hj
              have hlt : s.lineno < (rest.get ⟨j, hj⟩).lineno :=
                (List.pairwise_cons.mp hinc).1 _ hmem
              omega
            simp only [hqq, List.get]
            constructor
            · intro hcon; omega
            · intro hcon; omega

theorem lookupA_setA_self {K V : Type} [DecidableEq K] (k : K) (v : V) (l : List (K × V)) :
    lookupA k (setA k v l) = some v := by
  simp [setA, lookupA]

theorem Obj.ne_dispatcher {H : Type} : ∀ (o : Obj H) (h : H), o ≠ Obj.dispatcher o h := by
  intro o
  induction o with
  | base n c => intro h hc; exact Obj.noConfusion hc
  | dispatcher o1 h1 ih =>
      intro h hc
      injection hc with e1 e2
      exact ih h1 e1
  | injected o1 c ih =>
      intro h hc
      exact Obj.noConfusion hc

/-- C1: for every patched method or function with a prefix hook and no
replace hook, the FlowState returned by the prefix hook gates execution:
STOP_EXEC runs neither the original callable nor the postfix hook;
CONTINUE_WITHOUT_POSTFIX runs the original but not the postfix; CONTINUE
runs the original, and the postfix exactly when one was supplied. -/
theorem flowstate_gates_dispatch {I A K V : Type}
    (original_method : I → A → K → Option V)
    (p : I → A → K → PrefRet A K V)
    (postHook : Option (I → Option V → A → K → Option V))
    (original_function : A → K → Option V)
    (fp : A → K → PrefRet A K V)
    (fPost : Option (Option V → A → K → Option V))
    (inst : I) (args : A) (kwds : K) :
    (((p inst args kwds).flow_state = FlowState.STOP_EXEC →
        (patched_method original_method (some p) postHook none inst args kwds).orig_args = none ∧
        (patched_method original_method (some p) postHook none inst args kwds).post_in = none) ∧
      ((p inst args kwds).flow_state = FlowState.CONTINUE_NPF →
        (patched_method original_method (some p) postHook none inst args kwds).orig_args.isSome = true ∧
        (patched_method original_method (some p) postHook none inst args kwds).post_in = none) ∧
      ((p inst args kwds).flow_state = FlowState.CONTINUE_EXEC →
        (patched_method original_method (some p) postHook none inst args kwds).orig_args.isSome = true ∧
        (patched_method original_method (some p) postHook none inst args kwds).post_in.isSome = postHook.isSome)) ∧
    (((fp args kwds).flow_state = FlowState.STOP_EXEC →
        ∃ out, patched_function original_function (some fp) fPost none args kwds = Except.ok out ∧
          out.orig_args = none ∧ out.post_in = none) ∧
      ((fp args kwds).flow_state = FlowState.CONTINUE_NPF →
        ∃ out, patched_function original_function (some fp) fPost none args kwds = Except.ok out ∧
          out.orig_args.isSome = true ∧ out.post_in = none) ∧
      ((fp args kwds).flow_state = FlowState.CONTINUE_EXEC →
        ∃ out, patched_function original_function (some fp) fPost none args kwds = Except.ok out ∧
          out.orig_args.isSome = true ∧ out.post_in.isSome = fPost.isSome)) := by
  refine ⟨⟨?_, ?_, ?_⟩, ?_, ?_, ?_⟩
  · intro h
    cases postHook <;> simp [patched_method, h]
  · intro h
    cases postHook <;> simp [patched_method, h]
  · intro h
    cases postHook <;> simp [patched_method, h]
  · intro h
    cases fPost <;> simp [patched_function, h]
  · intro h
    cases fPost <;> simp [patched_function, h]
  · intro h
    cases fPost <;> simp [patched_function, h]

/-- Witness for the FlowState contract: concrete prefix hooks returning
each of the three FlowState values, with a postfix hook supplied. -/
theorem flowstate_gates_dispatch_witness :
    ((patched_method om0 (some preStop) (some post0) none () 1 ()).orig_args = none ∧
     (patched_method om0 (some preNpf) (some post0) none () 1 ()).post_in = none ∧
     (patched_method om0 (some preCont) (some post0) none () 1 ()).orig_args.isSome = true) ∧
    (∃ out, patched_function of0 (some fpreStop) (some fpost0) none 1 () = Except.ok out ∧
      out.orig_args = none ∧ out.post_in = none) :=
  ⟨⟨((flowstate_gates_dispatch om0 preStop (some post0) of0 fpreStop (some fpost0)
        () 1 ()).1.1 rfl).1,
    ((flowstate_gates_dispatch om0 preNpf (some post0) of0 fpreNpf (some fpost0)
        () 1 ()).1.2.1 rfl).2,
    ((flowstate_gates_dispatch om0 preCont (some post0) of0 fpreCont (some fpost0)
        () 1 ()).1.2.2 rfl).1⟩,
   (flowstate_gates_dispatch om0 preStop (some post0) of0 fpreStop (some fpost0)
        () 1 ()).2.1 rfl⟩

/-- C2: when a replace hook is supplied, a call to the patched method or
function invokes only the replace hook and returns its result; the prefix
hook, the original callable and the postfix hook never execute, whatever
other hooks were supplied. -/
theorem replace_absolute_override {I A K V : Type}
    (original_method : I → A → K → Option V)
    (preHook : Option (I → A → K → PrefRet A K V))
    (postHook : Option (I → Option V → A → K → Option V))
    (r : I → A → K → Option V)
    (original_function : A → K → Option V)
    (fPre : Option (A → K → PrefRet A K V))
    (fPost : Option (Option V → A → K → Option V))
    (fr : A → K → Option V)
    (inst : I) (args : A) (kwds : K) :
    patched_method original_method preHook postHook (some r) inst args kwds =
      { result := r inst args kwds, ran_replace := true, ran_pre := false,
        orig_args := none, post_in := none } ∧
    patched_function original_function fPre fPost (some fr) args kwds =
      Except.ok { result := fr args kwds, ran_replace := true, ran_pre := false,
                  orig_args := none, post_in := none } :=
  ⟨rfl, rfl⟩

/-- C3: patching the same identity twice captures the original only once,
and a single unpatch then restores the pre-first-patch callable (which is
distinct from the intermediate dispatcher installed by the first patch). -/
theorem double_patch_single_unpatch {K H : Type} [DecidableEq K]
    (st : PyState K H) (patch_key : K) (h1 h2 : H) (v : Obj H)
    (hattr : lookupA patch_key st.attrs = some v)
    (hcall : v.callable = true)
    (hfresh : lookupA patch_key st.patches = none) :
    lookupA patch_key (patch_method_st st patch_key h1).2.patches = some v ∧
    lookupA patch_key
      (patch_method_st (patch_method_st st patch_key h1).2 patch_key h2).2.patches = some v ∧
    (unpatch_method_st
      (patch_method_st (patch_method_st st patch_key h1).2 patch_key h2).2 patch_key).1 = true ∧
    lookupA patch_key
      (unpatch_method_st
        (patch_method_st (patch_method_st st patch_key h1).2 patch_key h2).2 patch_key).2.attrs
      = some v ∧
    v ≠ Obj.dispatcher v h1 := by
  have e1 : patch_method_st st patch_key h1 =
      (true, { st with attrs := setA patch_key (Obj.dispatcher v h1) st.attrs,
                       patches := setA patch_key v st.patches }) := by
    simp [patch_method_st, hattr, hcall, hfresh]
  have e2 : patch_method_st (patch_method_st st patch_key h1).2 patch_key h2 =
      (true, { st with
                attrs := setA patch_key
                  (Obj.dispatcher (Obj.dispatcher v h1) h2)
                  (setA patch_key (Obj.dispatcher v h1) st.attrs),
                patches := setA patch_key v st.patches }) := by
    rw [e1]
    simp [patch_method_st, lookupA_setA_self, Obj.callable]
  have e3 : unpatch_method_st
      (patch_method_st (patch_method_st st patch_key h1).2 patch_key h2).2 patch_key =
      (true, { st with
                attrs := setA patch_key v
                  (setA patch_key (Obj.dispatcher (Obj.dispatcher v h1) h2)
                    (setA patch_key (Obj.dispatcher v h1) st.attrs)),
                patches := eraseA patch_key (setA patch_key v st.patches) }) := by
    rw [e2]
    simp [unpatch_method_st, lookupA_setA_self]
  refine ⟨?_, ?_, ?_, ?_, Obj.ne_dispatcher v h1⟩
  · rw [e1]; exact lookupA_setA_self patch_key v st.patches
  · rw [e2]; exact lookupA_setA_self patch_key v st.patches
  · rw [e3]
  · rw [e3]; exact lookupA_setA_self patch_key v _

/-- Witness for the double-patch/single-unpatch round trip at a concrete
state with one callable attribute. -/
theorem double_patch_single_unpatch_witness :
    lookupA 0 (unpatch_method_st
      (patch_method_st (patch_method_st stOneCallable 0 10).2 0 20).2 0).2.attrs
      = some (Obj.base 1 true) ∧
    Obj.base 1 true ≠ Obj.dispatcher (Obj.base 1 true) 10 :=
  ⟨(double_patch_single_unpatch stOneCallable 0 10 20 (Obj.base 1 true)
      rfl rfl rfl).2.2.2.1,
   (double_patch_single_unpatch stOneCallable 0 10 20 (Obj.base 1 true)
      rfl rfl rfl).2.2.2.2⟩

/-- Counterexample to the claim that the dispatcher of `core.py` invokes
the original callable with the ORIGINAL call arguments: the concrete
prefix hook `preCont` rewrites the positional arguments of the call from
1 to 2 while returning CONTINUE, and the original then receives 2. -/
theorem original_args_counterexample :
    (preCont () 1 ()).flow_state ≠ FlowState.STOP_EXEC ∧
    (patched_method om0 (some preCont) none none () 1 ()).orig_args = some (2, ()) ∧
    (patched_method om0 (some preCont) none none () 1 ()).orig_args ≠ some (1, ()) := by
  decide

/-- C4 amended: when the prefix hook returns a FlowState other than STOP,
the `core.py` dispatcher invokes the original callable (bound to the
instance) with the arguments RETURNED BY THE PREFIX HOOK (`new_args`,
`new_kwds`, which the hook may have modified), and the return value of the
original becomes the working result; in the `harmonify.py` revision of the
dispatcher the original is invoked with the original call arguments. -/
theorem original_call_and_working_result {I A K V : Type}
    (original_method : I → A → K → Option V)
    (p : I → A → K → PrefRet A K V)
    (postHook : Option (I → Option V → A → K → Option V))
    (hp : I → A → K → HPrefRet V)
    (hPost : Option (I → Option V → A → K → Option V))
    (inst : I) (args : A) (kwds : K) :
    ((p inst args kwds).flow_state ≠ FlowState.STOP_EXEC →
      (patched_method original_method (some p) postHook none inst args kwds).orig_args =
        some ((p inst args kwds).new_args, (p inst args kwds).new_kwds) ∧
      (patched_method original_method (some p) postHook none inst args kwds).working =
        original_method inst (p inst args kwds).new_args (p inst args kwds).new_kwds) ∧
    ((hp inst args kwds).flow_state ≠ FlowState.STOP_EXEC →
      (Harmonify_patched_method original_method (some hp) hPost none inst args kwds).orig_args =
        some (args, kwds) ∧
      (Harmonify_patched_method original_method (some hp) hPost none inst args kwds).working =
        original_method inst args kwds) := by
  constructor
  · intro h
    rcases hfs : (p inst args kwds).flow_state
    · cases postHook <;>
        simp [patched_method, DispatchOutcome.working, hfs]
    · cases postHook <;>
        simp [patched_method, DispatchOutcome.working, hfs]
    · exact absurd hfs h
  · intro h
    rcases hfs : (hp inst args kwds).flow_state
    · cases hPost <;>
        simp [Harmonify_patched_method, DispatchOutcome.working, hfs]
    · cases hPost <;>
        simp [Harmonify_patched_method, DispatchOutcome.working, hfs]
    · exact absurd hfs h

/-- Witness for the amended original-invocation claim: with the concrete
argument-rewriting prefix hook, the working result is the original applied
to the rewritten argument 2. -/
theorem original_call_and_working_result_witness :
    (patched_method om0 (some preCont) (some post0) none () 1 ()).working = om0 () 2 () ∧
    (Harmonify_patched_method om0 (some hpreCont) (some post0) none () 1 ()).working =
      om0 () 1 () :=
  ⟨((original_call_and_working_result om0 preCont (some post0) hpreCont (some post0)
      () 1 ()).1 (by decide)).2,
   ((original_call_and_working_result om0 preCont (some post0) hpreCont (some post0)
      () 1 ()).2 (by decide)).2⟩

/-- C5: when the named attribute is absent or not callable, both
`patch_method` and `patch_function` return False without raising and leave
the attribute slots and the patch registry unchanged. -/
theorem patch_not_callable_fails {K H : Type} [DecidableEq K]
    (st : PyState K H) (patch_key : K) (hooks : H)
    (h : lookupA patch_key st.attrs = none ∨
         ∃ o, lookupA patch_key st.attrs = some o ∧ o.callable = false) :
    patch_method_st st patch_key hooks = (false, st) ∧
    patch_function_st st patch_key hooks = (false, st) := by
  rcases h with h | ⟨o, ho, hc⟩
  · constructor <;> simp [patch_method_st, patch_function_st, h]
  · constructor <;> simp [patch_method_st, patch_function_st, ho, hc]

/-- Witness: patching identity 0 in a state whose attribute there is not
callable fails and changes nothing. -/
theorem patch_not_callable_fails_witness :
    patch_method_st stOneNotCallable 0 5 = (false, stOneNotCallable) ∧
    patch_function_st stOneNotCallable 0 5 = (false, stOneNotCallable) :=
  patch_not_callable_fails stOneNotCallable 0 5
    (Or.inr ⟨Obj.base 1 false, rfl, rfl⟩)

/-- Counterexample to the claim that every reversal operation on an
unrecorded identity returns False without raising: `undo_method_inject`
subscripts `_method_injections[inject_key]` directly and raises a KeyError
on the empty registry instead of returning False. -/
theorem undo_missing_record_counterexample :
    undo_method_inject_st stEmpty 0 = Except.error "KeyError" ∧
    undo_method_inject_st stEmpty 0 ≠ Except.ok (false, stEmpty) := by
  constructor
  · rfl
  · intro h
    exact Except.noConfusion h

/-- C6 amended: on an identity with no recorded original, `unpatch_method`
and `unpatch_function` are no-ops returning False and never raise, leaving
the target attribute unchanged; `undo_method_inject`, however, raises a
KeyError on an identity with no InjectionRecord instead of returning
False. -/
theorem reversal_missing_record {K H : Type} [DecidableEq K]
    (st : PyState K H) (k : K) :
    (lookupA k st.patches = none →
      unpatch_method_st st k = (false, st) ∧
      unpatch_function_st st k = (false, st)) ∧
    (lookupA k st.method_injections = none →
      undo_method_inject_st st k = Except.error "KeyError") := by
  constructor
  · intro h
    constructor <;> simp [unpatch_method_st, unpatch_function_st, h]
  · intro h
    simp [undo_method_inject_st, h]

/-- Witness for the reversal no-op behaviour on the empty state. -/
theorem reversal_missing_record_witness :
    unpatch_method_st stEmpty 0 = (false, stEmpty) ∧
    unpatch_function_st stEmpty 0 = (false, stEmpty) ∧
    undo_method_inject_st stEmpty 0 = Except.error "KeyError" :=
  ⟨((reversal_missing_record stEmpty 0).1 rfl).1,
   ((reversal_missing_record stEmpty 0).1 rfl).2,
   (reversal_missing_record stEmpty 0).2 rfl⟩

/-- C7: on a body of top-level statements with increasing line numbers the
injected block is spliced at index `insert_index`, and that index cuts the
body exactly after the statements whose line number is at most
`insert_after_line` (index 0 when no statement qualifies). -/
theorem injection_anchor_resolution (body : List Stmt) (insert_after_line : Int)
    (injected_code : List Stmt)
    (hinc : body.Pairwise (fun a b => a.lineno < b.lineno))
    (hln : ∀ s ∈ body, s.has_lineno = true) :
    (∀ (i : Nat) (h : i < body.length),
      ((body.get ⟨i, h⟩).lineno ≤ insert_after_line ↔
        i < insert_index body insert_after_line)) ∧
    visit_FunctionDef_body body insert_after_line (some injected_code) =
      body.take (insert_index body insert_after_line) ++ injected_code ++
        body.drop (insert_index body insert_after_line) := by
  constructor
  · intro i h
    rw [insert_index_eq_qlen body insert_after_line hinc hln]
    exact qlen_get_iff insert_after_line body hinc hln i h
  · rfl

/-- Witness for anchor resolution on the spec scenario: body statements at
relative lines [1, 3, 7]; with `insert_after_line = 3` the block lands at
index 2, and with `insert_after_line = 0` at index 0. -/
theorem injection_anchor_resolution_witness :
    visit_FunctionDef_body body137 3 (some inj0) =
      body137.take (insert_index body137 3) ++ inj0 ++
        body137.drop (insert_index body137 3) ∧
    insert_index body137 3 = 2 ∧
    insert_index body137 0 = 0 ∧
    visit_FunctionDef_body body137 3 (some inj0) =
      [⟨0, true, 1⟩, ⟨1, true, 3⟩, ⟨100, true, 1⟩, ⟨2, true, 7⟩] ∧
    visit_FunctionDef_body body137 0 (some inj0) =
      [⟨100, true, 1⟩, ⟨0, true, 1⟩, ⟨1, true, 3⟩, ⟨2, true, 7⟩] :=
  ⟨(injection_anchor_resolution body137 3 inj0 (by decide) (by decide)).2,
   by decide, by decide, by decide, by decide⟩

/-- C8: when `inject_method` succeeds on an identity with no existing
InjectionRecord, a subsequent `undo_method_inject` rebinds the class
attribute to the exact pre-injection callable captured at injection
time. -/
theorem inject_undo_roundtrip {K H : Type} [DecidableEq K]
    (st : PyState K H) (inject_key : K) (code : Nat) (t : Obj H)
    (hattr : lookupA inject_key st.attrs = some t)
    (hfresh : lookupA inject_key st.method_injections = none) :
    ∃ st1 st2 : PyState K H,
      inject_method_st st inject_key code = Except.ok (true, st1) ∧
      undo_method_inject_st st1 inject_key = Except.ok (true, st2) ∧
      lookupA inject_key st2.attrs = some t := by
  have e1 : inject_method_st st inject_key code =
      Except.ok (true,
        { st with
            attrs := setA inject_key (Obj.injected t code) st.attrs,
            method_injections :=
              setA inject_key (t, Obj.injected t code) st.method_injections }) := by
    simp [inject_method_st, hattr, hfresh]
  refine ⟨{ st with
              attrs := setA inject_key (Obj.injected t code) st.attrs,
              method_injections :=
                setA inject_key (t, Obj.injected t code) st.method_injections },
          { st with
              attrs := setA inject_key t
                (setA inject_key (Obj.injected t code) st.attrs),
              method_injections :=
                setA inject_key (t, Obj.injected t code) st.method_injections },
          e1, ?_, ?_⟩
  · simp [undo_method_inject_st, lookupA_setA_self]
  · exact lookupA_setA_self inject_key t _

/-- Witness for the inject/undo round trip at the concrete one-attribute
state. -/
theorem inject_undo_roundtrip_witness :
    ∃ st1 st2 : PyState Nat Nat,
      inject_method_st stOneCallable 0 5 = Except.ok (true, st1) ∧
      undo_method_inject_st st1 0 = Except.ok (true, st2) ∧
      lookupA 0 st2.attrs = some (Obj.base 1 true) :=
  inject_undo_roundtrip stOneCallable 0 5 (Obj.base 1 true) rfl rfl

/-- Counterexample to delete-on-revert for the injection registry: after a
successful `inject_method` and a successful `undo_method_inject` on
identity 0, the InjectionRecord is still present in
`_method_injections`. -/
theorem injection_record_not_deleted_counterexample :
    inject_method_st stOneCallable 0 5 =
      Except.ok (true,
        (⟨[(0, Obj.injected (Obj.base 1 true) 5)], [],
          [(0, (Obj.base 1 true, Obj.injected (Obj.base 1 true) 5))]⟩ : PyState Nat Nat)) ∧
    undo_method_inject_st
      (⟨[(0, Obj.injected (Obj.base 1 true) 5)], [],
        [(0, (Obj.base 1 true, Obj.injected (Obj.base 1 true) 5))]⟩ : PyState Nat Nat) 0 =
      Except.ok (true,
        (⟨[(0, Obj.base 1 true)], [],
          [(0, (Obj.base 1 true, Obj.injected (Obj.base 1 true) 5))]⟩ : PyState Nat Nat)) ∧
    lookupA 0 ([(0, (Obj.base 1 true, Obj.injected (Obj.base 1 true) 5))] :
        List (Nat × (Obj Nat × Obj Nat))) ≠ none := by
  refine ⟨rfl, rfl, ?_⟩
  intro h
  exact Option.noConfusion h

/-- C9 amended: for every identity an InjectionRecord is created at most
once across repeated inject calls (the first-captured pair is retained),
but `undo_method_inject` does NOT delete the record: the registry is
unchanged by a successful undo, so a later inject for that identity still
retains the first-captured pair rather than capturing afresh. -/
theorem injection_registry_first_capture {K H : Type} [DecidableEq K]
    (st : PyState K H) (k : K) (code : Nat) :
    (∀ pr, lookupA k st.method_injections = some pr →
      ∀ b st1, inject_method_st st k code = Except.ok (b, st1) →
        st1.method_injections = st.method_injections) ∧
    (∀ t, lookupA k st.attrs = some t →
      lookupA k st.method_injections = none →
      ∃ st1, inject_method_st st k code = Except.ok (true, st1) ∧
        lookupA k st1.method_injections = some (t, Obj.injected t code)) ∧
    (∀ b st1, undo_method_inject_st st k = Except.ok (b, st1) →
      st1.method_injections = st.method_injections) := by
  refine ⟨?_, ?_, ?_⟩
  · intro pr hpr b st1 h
    cases hattr : lookupA k st.attrs with
    | none =>
        rw [inject_method_st, hattr] at h
        exact Except.noConfusion h
    | some t =>
        rw [inject_method_st, hattr] at h
        simp only [hpr] at h
        cases h
        rfl
  · intro t hattr hfresh
    refine ⟨{ st with
                attrs := setA k (Obj.injected t code) st.attrs,
                method_injections :=
                  setA k (t, Obj.injected t code) st.method_injections },
            ?_, lookupA_setA_self k _ _⟩
    simp [inject_method_st, hattr, hfresh]
  · intro b st1 h
    cases hrec : lookupA k st.method_injections with
    | none =>
        rw [undo_method_inject_st, hrec] at h
        exact Except.noConfusion h
    | some pr =>
        rw [undo_method_inject_st, hrec] at h
        cases h
        rfl

/-- Witness for the first-capture invariant: a fresh capture happens at the
concrete one-attribute state. -/
theorem injection_registry_first_capture_witness :
    ∃ st1 : PyState Nat Nat,
      inject_method_st stOneCallable 0 5 = Except.ok (true, st1) ∧
      lookupA 0 st1.method_injections =
        some (Obj.base 1 true, Obj.injected (Obj.base 1 true) 5) :=
  (injection_registry_first_capture stOneCallable 0 5).2.1 (Obj.base 1 true) rfl rfl

/-- C10: with no replace hook and no prefix hook, every call to the
dispatcher that `core.py::patch_function` installs raises a NameError,
because `new_args` and `new_kwds` are assigned only inside the prefix
branch; such a call can never reach the original callable. -/
theorem patched_function_without_hooks_name_error {A K V : Type}
    (original_function : A → K → Option V)
    (postHook : Option (Option V → A → K → Option V))
    (args : A) (kwds : K) :
    patched_function original_function none postHook none args kwds =
      Except.error "NameError" :=
  rfl
